import Mathlib

/-!
Verification of the booking-management core of the drivent backend.

The embedding below is a shallow model of src/services/bookings-service
(isUserAllowed, isRoomFull, getBooking, createBooking, updateBooking) and of
src/repositories/booking-repository together with the enrollment, ticket and
room repository operations it consumes.  The persistent stores (Prisma tables)
are modelled as lists of records inside a single Store value; every service
operation takes the store and returns its result together with the store it
leaves behind (unchanged except for the single mutating step of create/update).
The two domain failures are forbiddenError (the spec's AuthorizationDenied)
and notFoundError (the spec's NotFound), exactly as thrown by the source.
-/

namespace Drivent

/-- TicketType record: capability flags of a purchased ticket type
(isRemote, includesHotel), as read by the service. -/
structure TicketType where
  isRemote : Bool
  includesHotel : Bool
deriving DecidableEq, Repr

/-- Ticket status enumeration; the service only distinguishes PAID. -/
inductive TicketStatus
  | RESERVED
  | PAID
deriving DecidableEq, Repr

/-- Ticket record: belongs to one enrollment, carries a status and a type. -/
structure Ticket where
  enrollmentId : Int
  status : TicketStatus
  ticketType : TicketType
deriving DecidableEq, Repr

/-- Enrollment record: belongs to one user. -/
structure Enrollment where
  id : Int
  userId : Int
deriving DecidableEq, Repr

/-- Room record: integer id and integer capacity. -/
structure Room where
  id : Int
  capacity : Int
deriving DecidableEq, Repr

/-- Booking record: integer id, one userId, one roomId. -/
structure Booking where
  id : Int
  userId : Int
  roomId : Int
deriving DecidableEq, Repr

/-- Payload returned by getBooking: the booking's id joined with its Room
(select \x7b id, Room \x7d in the repository). -/
structure BookingWithRoom where
  id : Int
  room : Room
deriving DecidableEq, Repr

/-- Payload returned by createBooking/updateBooking: \x7b bookingId \x7d. -/
structure BookingId where
  bookingId : Int
deriving DecidableEq, Repr

/-- The persistent stores visible to the core.  nextBookingId models the
autoincrement id Prisma assigns to a newly inserted booking row. -/
structure Store where
  enrollments : List Enrollment
  tickets : List Ticket
  rooms : List Room
  bookings : List Booking
  nextBookingId : Int
deriving DecidableEq, Repr

/-- The two domain failures thrown by the service: forbiddenError is the
spec's AuthorizationDenied, notFoundError the spec's NotFound. -/
inductive ServiceError
  | forbiddenError
  | notFoundError
deriving DecidableEq, Repr

deriving instance DecidableEq for Except

/-- enrollmentRepository.findWithAddressByUserId: first enrollment of the
user, or none. -/
def findWithAddressByUserId (s : Store) (userId : Int) : Option Enrollment :=
  s.enrollments.find? (fun e => e.userId == userId)

/-- ticketRepository.findTicketByEnrollmentId: first ticket tied to the
enrollment, or none. -/
def findTicketByEnrollmentId (s : Store) (enrollmentId : Int) : Option Ticket :=
  s.tickets.find? (fun t => t.enrollmentId == enrollmentId)

/-- roomRepository.findRoomById: the room with the given id, or none. -/
def findRoomById (s : Store) (roomId : Int) : Option Room :=
  s.rooms.find? (fun r => r.id == roomId)

/-- bookingRepository.findById: the booking with the given id, or none
(prisma.booking.findUnique on the primary key). -/
def findById (s : Store) (bookingId : Int) : Option Booking :=
  s.bookings.find? (fun b => b.id == bookingId)

/-- bookingRepository.findWithRoomByUserId: first booking of the user, with
its Room joined (prisma findFirst, select \x7b id, Room \x7d; the relation is
enforced by a foreign key, so on well-formed stores the join always hits). -/
def findWithRoomByUserId (s : Store) (userId : Int) : Option BookingWithRoom :=
  (s.bookings.find? (fun b => b.userId == userId)).bind fun b =>
    (findRoomById s b.roomId).map fun room => { id := b.id, room := room }

/-- bookingRepository.createByUserIdAndRoomId: insert a new booking row
binding userId to roomId; returns the created row and the new store. -/
def createByUserIdAndRoomId (s : Store) (userId roomId : Int) : Booking × Store :=
  let newBooking : Booking := { id := s.nextBookingId, userId := userId, roomId := roomId }
  (newBooking,
    { s with
        bookings := s.bookings ++ [newBooking]
        nextBookingId := s.nextBookingId + 1 })

/-- bookingRepository.updateByBookingIdAndRoomId: set the roomId of the
booking row with the given id (prisma update on the primary key). -/
def updateByBookingIdAndRoomId (s : Store) (bookingId roomId : Int) : Store :=
  { s with
      bookings :=
        s.bookings.map fun b => if b.id == bookingId then { b with roomId := roomId } else b }

/-- bookingRepository.countBookingsByRoomId: number of booking rows whose
roomId equals the given id. -/
def countBookingsByRoomId (s : Store) (roomId : Int) : Nat :=
  (s.bookings.filter (fun b => b.roomId == roomId)).length

/-- bookingsService.isUserAllowed: enrollment must exist, its ticket must
exist, the ticket type must be hostable (not remote, includes hotel) and the
ticket must be PAID.  Absence folds into false, never an error. -/
def isUserAllowed (s : Store) (userId : Int) : Bool :=
  match findWithAddressByUserId s userId with
  | none => false
  | some enrollment =>
    match findTicketByEnrollmentId s enrollment.id with
    | none => false
    | some ticket =>
      let isHostableTicketType := !ticket.ticketType.isRemote && ticket.ticketType.includesHotel
      let isTicketPaid := ticket.status == TicketStatus.PAID
      if !(isHostableTicketType && isTicketPaid) then false
      else true

/-- bookingsService.isRoomFull: count the booking rows referencing room.id;
full iff the count equals (exactly) the room's capacity. -/
def isRoomFull (s : Store) (room : Room) : Bool :=
  let capacity := room.capacity
  let bookingsOnRoom := countBookingsByRoomId s room.id
  let isFull := (bookingsOnRoom : Int) == capacity
  isFull

/-- bookingsService.getBooking: eligibility gate, then fetch the user's
booking joined with its room; NotFound if absent.  Read-only. -/
def getBooking (s : Store) (userId : Int) :
    Except ServiceError BookingWithRoom × Store :=
  if !(isUserAllowed s userId) then (.error .forbiddenError, s)
  else
    match findWithRoomByUserId s userId with
    | none => (.error .notFoundError, s)
    | some bookingWithRoom => (.ok bookingWithRoom, s)

/-- bookingsService.createBooking: gates in source order — roomId >= 1,
eligibility, user must not already have a booking, room must exist, room must
not be full — then the single mutating insert, returning the new row's id. -/
def createBooking (s : Store) (userId roomId : Int) :
    Except ServiceError BookingId × Store :=
  if roomId < 1 then (.error .forbiddenError, s)
  else if !(isUserAllowed s userId) then (.error .forbiddenError, s)
  else
    match findWithRoomByUserId s userId with
    | some _ => (.error .forbiddenError, s)
    | none =>
      match findRoomById s roomId with
      | none => (.error .notFoundError, s)
      | some room =>
        if isRoomFull s room then (.error .forbiddenError, s)
        else
          let created := createByUserIdAndRoomId s userId roomId
          (.ok { bookingId := created.1.id }, created.2)

/-- bookingsService.updateBooking: gates in source order — ids >= 1,
eligibility, room and booking must both exist (checked together, NotFound),
booking must be the user's own, the new room must differ from the current
one, the new room must not be full — then the single mutating update. -/
def updateBooking (s : Store) (userId bookingId roomId : Int) :
    Except ServiceError BookingId × Store :=
  if roomId < 1 || bookingId < 1 then (.error .forbiddenError, s)
  else if !(isUserAllowed s userId) then (.error .forbiddenError, s)
  else
    match findRoomById s roomId, findById s bookingId with
    | some room, some booking =>
      -- isBookingIdFromUser is the truthy value
      -- userBooking && userBooking?.id === bookingId of the source; its two
      -- falsy cases (no own booking / different id) are the two forbidden
      -- branches below.
      match findWithRoomByUserId s userId with
      | none => (.error .forbiddenError, s)
      | some userBooking =>
        if !(userBooking.id == bookingId) then (.error .forbiddenError, s)
        else if booking.roomId == roomId then (.error .forbiddenError, s)
        else if isRoomFull s room then (.error .forbiddenError, s)
        else (.ok { bookingId := bookingId }, updateByBookingIdAndRoomId s bookingId roomId)
    | _, _ => (.error .notFoundError, s)

/-- Well-formedness of a store, as guaranteed by the database schema: booking
ids are primary keys (no duplicates), room ids are primary keys, every
booking's roomId references an existing room (foreign key), and serial ids
are at least 1. -/
def Store.WF (s : Store) : Prop :=
  (s.bookings.map Booking.id).Nodup ∧
  (s.rooms.map Room.id).Nodup ∧
  (∀ b ∈ s.bookings, ∃ r ∈ s.rooms, r.id = b.roomId) ∧
  (∀ b ∈ s.bookings, 1 ≤ b.id) ∧
  (∀ r ∈ s.rooms, 1 ≤ r.id)

instance (s : Store) : Decidable s.WF := by
  unfold Store.WF
  infer_instance

/-- Capacity invariant I2 / property P1: no room holds more bookings than its
capacity. -/
def RoomCapOK (s : Store) : Prop :=
  ∀ r ∈ s.rooms, (countBookingsByRoomId s r.id : Int) ≤ r.capacity

instance (s : Store) : Decidable (RoomCapOK s) := by
  unfold RoomCapOK
  infer_instance

/-- Single-booking invariant I1 / property P2: every user holds at most one
booking row. -/
def OneBookingPerUser (s : Store) : Prop :=
  ∀ u : Int, (s.bookings.countP (fun b => b.userId == u)) ≤ 1

/-! Basic facts about the repository operations. -/

theorem getBooking_store (s : Store) (u : Int) : (getBooking s u).2 = s := by
  unfold getBooking
  split
  · rfl
  · split <;> rfl

theorem createBooking_error_store (s : Store) (u r : Int) (e : ServiceError) :
    (createBooking s u r).1 = .error e → (createBooking s u r).2 = s := by
  unfold createBooking
  split
  · intro _; rfl
  · split
    · intro _; rfl
    · split
      · intro _; rfl
      · split
        · intro _; rfl
        · split
          · intro _; rfl
          · intro h; simp at h

theorem updateBooking_error_store (s : Store) (u b r : Int) (e : ServiceError) :
    (updateBooking s u b r).1 = .error e → (updateBooking s u b r).2 = s := by
  unfold updateBooking
  repeat' split
  all_goals intro h
  all_goals first | rfl | (exfalso; simp at h)

theorem findById_mem (s : Store) (bid : Int) (bk : Booking)
    (h : findById s bid = some bk) : bk ∈ s.bookings ∧ bk.id = bid :=
  ⟨List.mem_of_find?_eq_some h, by simpa using List.find?_some h⟩

theorem findRoomById_mem (s : Store) (rid : Int) (room : Room)
    (h : findRoomById s rid = some room) : room ∈ s.rooms ∧ room.id = rid :=
  ⟨List.mem_of_find?_eq_some h, by simpa using List.find?_some h⟩

theorem findRoomById_isSome (s : Store) (rid : Int) (room : Room)
    (hmem : room ∈ s.rooms) (hid : room.id = rid) :
    ∃ room2, findRoomById s rid = some room2 := by
  have h : (s.rooms.find? (fun r => r.id == rid)).isSome :=
    List.find?_isSome.mpr ⟨room, hmem, by simp [hid]⟩
  exact Option.isSome_iff_exists.mp h

theorem findWithRoomByUserId_none_of (s : Store) (u : Int)
    (h : ∀ b ∈ s.bookings, b.userId ≠ u) : findWithRoomByUserId s u = none := by
  unfold findWithRoomByUserId
  rw [List.find?_eq_none.mpr]
  · rfl
  · intro b hb
    simp [h b hb]

theorem findWithRoomByUserId_none_inv (s : Store) (u : Int)
    (href : ∀ b ∈ s.bookings, ∃ r ∈ s.rooms, r.id = b.roomId)
    (h : findWithRoomByUserId s u = none) : ∀ b ∈ s.bookings, b.userId ≠ u := by
  intro b hb hbu
  unfold findWithRoomByUserId at h
  cases hfind : s.bookings.find? (fun x => x.userId == u) with
  | none =>
    rw [List.find?_eq_none] at hfind
    exact hfind b hb (by simp [hbu])
  | some b2 =>
    rw [hfind, Option.some_bind] at h
    cases hroom : findRoomById s b2.roomId with
    | some room => rw [hroom] at h; simp at h
    | none =>
      obtain ⟨r, hr, hrid⟩ := href b2 (List.mem_of_find?_eq_some hfind)
      obtain ⟨room2, hroom2⟩ := findRoomById_isSome s b2.roomId r hr hrid
      rw [hroom2] at hroom
      exact Option.noConfusion hroom

theorem findWithRoomByUserId_some_inv (s : Store) (u : Int) (ub : BookingWithRoom)
    (h : findWithRoomByUserId s u = some ub) :
    ∃ b, s.bookings.find? (fun x => x.userId == u) = some b ∧
      b ∈ s.bookings ∧ b.userId = u ∧ ub.id = b.id ∧
      findRoomById s b.roomId = some ub.room := by
  unfold findWithRoomByUserId at h
  cases hfind : s.bookings.find? (fun x => x.userId == u) with
  | none => rw [hfind] at h; simp at h
  | some b =>
    rw [hfind, Option.some_bind] at h
    cases hroom : findRoomById s b.roomId with
    | none => rw [hroom] at h; simp at h
    | some room =>
      rw [hroom, Option.map_some'] at h
      refine ⟨b, rfl, List.mem_of_find?_eq_some hfind,
        by simpa using List.find?_some hfind, ?_, ?_⟩
      · rw [← Option.some_inj.mp h]
      · rw [← Option.some_inj.mp h]; exact hroom

theorem findWithRoomByUserId_some_of_find (s : Store) (u : Int) (b : Booking)
    (hfind : s.bookings.find? (fun x => x.userId == u) = some b)
    (room : Room) (hroom : findRoomById s b.roomId = some room) :
    findWithRoomByUserId s u = some { id := b.id, room := room } := by
  unfold findWithRoomByUserId
  rw [hfind, Option.some_bind, hroom, Option.map_some']

theorem createBooking_ok_inv (s : Store) (u r : Int) (v : BookingId)
    (h : (createBooking s u r).1 = .ok v) :
    ¬ r < 1 ∧ isUserAllowed s u = true ∧ findWithRoomByUserId s u = none ∧
    ∃ room, findRoomById s r = some room ∧ isRoomFull s room = false ∧
      v = { bookingId := s.nextBookingId } ∧
      (createBooking s u r).2 =
        { s with
            bookings := s.bookings ++ [{ id := s.nextBookingId, userId := u, roomId := r }]
            nextBookingId := s.nextBookingId + 1 } := by
  revert h
  unfold createBooking
  split
  next hr => intro h; exact absurd h (by simp)
  next hr =>
    split
    next ha => intro h; exact absurd h (by simp)
    next ha =>
      split
      next ub hub => intro h; exact absurd h (by simp)
      next hub =>
        split
        next hroom => intro h; exact absurd h (by simp)
        next room hroom =>
          split
          next hfull => intro h; exact absurd h (by simp)
          next hfull =>
            intro h
            refine ⟨hr, by simpa using ha, hub, room, hroom, by simpa using hfull, ?_, ?_⟩
            · have : some ({ bookingId := s.nextBookingId } : BookingId) = some v := by
                simpa [createByUserIdAndRoomId] using h
              exact (Option.some_inj.mp this).symm
            · simp [createByUserIdAndRoomId]

theorem updateBooking_ok_inv (s : Store) (u b r : Int) (v : BookingId)
    (h : (updateBooking s u b r).1 = .ok v) :
    isUserAllowed s u = true ∧
    ∃ room booking ub,
      findRoomById s r = some room ∧ findById s b = some booking ∧
      findWithRoomByUserId s u = some ub ∧ ub.id = b ∧
      booking.roomId ≠ r ∧ isRoomFull s room = false ∧
      v = { bookingId := b } ∧
      (updateBooking s u b r).2 = updateByBookingIdAndRoomId s b r := by
  revert h
  unfold updateBooking
  split
  next hids => intro h; exact absurd h (by simp)
  next hids =>
    split
    next ha => intro h; exact absurd h (by simp)
    next ha =>
      split
      next room booking hroom hbk =>
        split
        next hub => intro h; exact absurd h (by simp)
        next ub hub =>
          split
          next hid => intro h; exact absurd h (by simp)
          next hid =>
            split
            next hsame => intro h; exact absurd h (by simp)
            next hsame =>
              split
              next hfull => intro h; exact absurd h (by simp)
              next hfull =>
                intro h
                refine ⟨by simpa using ha, room, booking, ub, hroom, hbk, hub,
                  by simpa using hid, by simpa using hsame, by simpa using hfull,
                  ?_, rfl⟩
                have : some ({ bookingId := b } : BookingId) = some v := by simpa using h
                exact (Option.some_inj.mp this).symm
      next o1 o2 hno => intro h; exact absurd h (by simp)

/-! Counting lemmas for the capacity and single-booking invariants. -/

theorem countBookingsByRoomId_eq_countP (s : Store) (rid : Int) :
    countBookingsByRoomId s rid = s.bookings.countP (fun x => x.roomId == rid) :=
  (List.countP_eq_length_filter ..).symm

theorem countP_room_append (l : List Booking) (nb : Booking) (rid : Int) :
    (l ++ [nb]).countP (fun x => x.roomId == rid) =
      l.countP (fun x => x.roomId == rid) + (if nb.roomId = rid then 1 else 0) := by
  rw [List.countP_append]
  congr 1
  by_cases hc : nb.roomId = rid <;> simp [List.countP_cons, hc]

theorem countP_user_append (l : List Booking) (nb : Booking) (uid : Int) :
    (l ++ [nb]).countP (fun x => x.userId == uid) =
      l.countP (fun x => x.userId == uid) + (if nb.userId = uid then 1 else 0) := by
  rw [List.countP_append]
  congr 1
  by_cases hc : nb.userId = uid <;> simp [List.countP_cons, hc]

/-- Updating the room of the uniquely identified booking adds exactly one
occupant to the target room, provided the booking currently sits elsewhere. -/
theorem countP_update_target (l : List Booking) (bid r : Int) (bk : Booking)
    (hmem : bk ∈ l) (hid : bk.id = bid)
    (hnodup : (l.map Booking.id).Nodup) (hold : bk.roomId ≠ r) :
    (l.map (fun x => if x.id == bid then { x with roomId := r } else x)).countP
        (fun x => x.roomId == r) =
      l.countP (fun x => x.roomId == r) + 1 := by
  induction l with
  | nil => cases hmem
  | cons hd tl ih =>
    rw [List.map_cons, List.countP_cons, List.countP_cons]
    have hn : (∀ x ∈ tl, ¬ x.id = hd.id) ∧ (tl.map Booking.id).Nodup := by
      simpa using hnodup
    obtain ⟨hhd, htl⟩ := hn
    rcases List.mem_cons.mp hmem with hbk | hbk
    · subst hbk
      have hmap : tl.map (fun x => if x.id == bid then { x with roomId := r } else x) = tl := by
        have hcong : ∀ x ∈ tl, (if x.id == bid then { x with roomId := r } else x) = x := by
          intro x hx
          have hxne : x.id ≠ bid := fun hxe => hhd x hx (hxe.trans hid.symm)
          simp [hxne]
        rw [List.map_congr_left hcong]
        simp
      rw [hmap]
      have h1 : ((if bk.id == bid then { bk with roomId := r } else bk).roomId == r) = true := by
        simp [hid]
      have h2 : (bk.roomId == r) = false := by simpa using hold
      simp only [h1, h2]
      simp
    · have hhdne : hd.id ≠ bid := fun hhde => hhd bk hbk (hid.trans hhde.symm)
      have hmaphd : (if hd.id == bid then { hd with roomId := r } else hd) = hd := by
        simp [hhdne]
      rw [hmaphd, ih hbk htl]
      omega

/-- Updating one booking's room never increases the occupancy of any other
room. -/
theorem countP_update_other (l : List Booking) (bid r rid : Int) (hne : rid ≠ r) :
    (l.map (fun x => if x.id == bid then { x with roomId := r } else x)).countP
        (fun x => x.roomId == rid) ≤ l.countP (fun x => x.roomId == rid) := by
  rw [List.countP_map]
  refine List.countP_mono_left ?_
  intro x _ hpx
  by_cases hc : x.id = bid
  · exfalso
    have hr : r = rid := by
      simp [Function.comp, hc] at hpx
      exact hpx
    exact hne hr.symm
  · simpa [Function.comp, hc] using hpx

/-- Updating a booking's room does not change any user's booking count. -/
theorem countP_user_update (l : List Booking) (bid r uid : Int) :
    (l.map (fun x => if x.id == bid then { x with roomId := r } else x)).countP
        (fun x => x.userId == uid) = l.countP (fun x => x.userId == uid) := by
  rw [List.countP_map]
  induction l with
  | nil => rfl
  | cons hd tl ih =>
    rw [List.countP_cons, List.countP_cons, ih]
    congr 1
    by_cases hc : (hd.id == bid) = true <;> simp [Function.comp, hc]

theorem isRoomFull_true_iff (s : Store) (room : Room) :
    isRoomFull s room = true ↔
      (countBookingsByRoomId s room.id : Int) = room.capacity := by
  unfold isRoomFull
  simp

theorem isRoomFull_false_of_ne (s : Store) (room : Room)
    (h : (countBookingsByRoomId s room.id : Int) ≠ room.capacity) :
    isRoomFull s room = false := by
  cases hb : isRoomFull s room with
  | false => rfl
  | true => exact absurd ((isRoomFull_true_iff s room).mp hb) h

theorem ne_capacity_of_isRoomFull_false (s : Store) (room : Room)
    (h : isRoomFull s room = false) :
    (countBookingsByRoomId s room.id : Int) ≠ room.capacity := by
  intro he
  rw [(isRoomFull_true_iff s room).mpr he] at h
  exact Bool.noConfusion h

/-! Concrete store used to instantiate the theorems: users 1 and 2 are
enrolled with paid, hostable tickets; rooms 10 (capacity 3) and 11
(capacity 1) exist; booking 5 binds user 2 to room 10. -/

def exStore : Store :=
  { enrollments := [{ id := 1, userId := 1 }, { id := 2, userId := 2 }]
    tickets := [{ enrollmentId := 1, status := .PAID,
                  ticketType := { isRemote := false, includesHotel := true } },
                { enrollmentId := 2, status := .PAID,
                  ticketType := { isRemote := false, includesHotel := true } }]
    rooms := [{ id := 10, capacity := 3 }, { id := 11, capacity := 1 }]
    bookings := [{ id := 5, userId := 2, roomId := 10 }]
    nextBookingId := 6 }

/-! The claims. -/

/-- C5: isUserAllowed returns true exactly when the user's enrollment exists,
a ticket tied to that enrollment exists, the ticket's type is not remote and
includes hotel, and the ticket's status is PAID; absence of enrollment or
ticket therefore folds into a false result rather than an error, and the
operation is a pure read of the store (it is a function of the store with no
store output, so it performs no writes). -/
theorem isUserAllowed_spec (s : Store) (userId : Int) :
    isUserAllowed s userId = true ↔
      ∃ enrollment, findWithAddressByUserId s userId = some enrollment ∧
        ∃ ticket, findTicketByEnrollmentId s enrollment.id = some ticket ∧
          ticket.ticketType.isRemote = false ∧
          ticket.ticketType.includesHotel = true ∧
          ticket.status = TicketStatus.PAID := by
  unfold isUserAllowed
  cases he : findWithAddressByUserId s userId with
  | none => simp
  | some e =>
    cases ht : findTicketByEnrollmentId s e.id with
    | none => simp [ht]
    | some t =>
      by_cases h1 : t.ticketType.isRemote = false <;>
        by_cases h2 : t.ticketType.includesHotel = true <;>
          by_cases h3 : t.status = TicketStatus.PAID <;>
            simp_all

/-- C5 witness: on the concrete store, user 1 satisfies the right-hand side,
so isUserAllowed evaluates to true. -/
theorem isUserAllowed_spec_witness : isUserAllowed exStore 1 = true :=
  (isUserAllowed_spec exStore 1).mpr
    ⟨{ id := 1, userId := 1 }, by decide,
     { enrollmentId := 1, status := .PAID,
       ticketType := { isRemote := false, includesHotel := true } },
     by decide, rfl, rfl, rfl⟩

/-- C4: isRoomFull is true exactly when the number of bookings referencing
room.id equals the room's capacity; in a state where the count strictly
exceeds the capacity it is therefore false, and (third conjunct) with every
other gate of createBooking passing, the capacity gate lets such an
over-capacity request through to a successful insert. -/
theorem isRoomFull_spec (s : Store) (room : Room) :
    (isRoomFull s room = true ↔
      (countBookingsByRoomId s room.id : Int) = room.capacity) ∧
    (room.capacity < (countBookingsByRoomId s room.id : Int) →
      isRoomFull s room = false) ∧
    (∀ u : Int, ¬ room.id < 1 → isUserAllowed s u = true →
      findWithRoomByUserId s u = none → findRoomById s room.id = some room →
      room.capacity < (countBookingsByRoomId s room.id : Int) →
      (createBooking s u room.id).1 = .ok { bookingId := s.nextBookingId }) := by
  have hiff : isRoomFull s room = true ↔
      (countBookingsByRoomId s room.id : Int) = room.capacity := by
    unfold isRoomFull
    simp
  refine ⟨hiff, ?_, ?_⟩
  · intro h
    cases hb : isRoomFull s room with
    | false => rfl
    | true => exact absurd (hiff.mp hb) (by omega)
  · intro u hr ha hub hroom hover
    have hfull : isRoomFull s room = false := by
      cases hb : isRoomFull s room with
      | false => rfl
      | true => exact absurd (hiff.mp hb) (by omega)
    unfold createBooking
    rw [if_neg hr, ha]
    simp only [Bool.not_true, Bool.false_eq_true, if_false, hub, hroom, hfull,
      Bool.false_eq_true, if_false]
    simp [createByUserIdAndRoomId]

/-- C4 witness: room 10 of the concrete store holds 1 of 3 occupants, so the
equality characterization and the excess clause instantiate there. -/
theorem isRoomFull_spec_witness :
    (isRoomFull exStore { id := 10, capacity := 3 } = true ↔
      (countBookingsByRoomId exStore 10 : Int) = 3) ∧
    ((3 : Int) < (countBookingsByRoomId exStore 10 : Int) →
      isRoomFull exStore { id := 10, capacity := 3 } = false) := by
  have h := isRoomFull_spec exStore { id := 10, capacity := 3 }
  exact ⟨h.1, h.2.1⟩

/-- C10: no operation validates userId: an arbitrary integer userId (zero and
negatives included) flows into the enrollment lookup, and whenever that
lookup misses, getBooking, createBooking and updateBooking all fail with
forbiddenError (AuthorizationDenied) — never with a distinct validation
error and never with a crash (the operations are total). -/
theorem no_userId_validation (s : Store) (u b r : Int)
    (h : findWithAddressByUserId s u = none) :
    (getBooking s u).1 = .error .forbiddenError ∧
    (createBooking s u r).1 = .error .forbiddenError ∧
    (updateBooking s u b r).1 = .error .forbiddenError := by
  have hall : isUserAllowed s u = false := by
    unfold isUserAllowed
    rw [h]
  refine ⟨?_, ?_, ?_⟩
  · unfold getBooking
    rw [hall]
    simp
  · unfold createBooking
    by_cases hr : r < 1
    · rw [if_pos hr]
    · rw [if_neg hr, hall]
      simp
  · unfold updateBooking
    by_cases hrb : (decide (r < 1) || decide (b < 1)) = true
    · rw [if_pos hrb]
    · rw [if_neg hrb, hall]
      simp

/-- C10 witness: user -7 has no enrollment in the concrete store, and all
three operations deny the request. -/
theorem no_userId_validation_witness :
    findWithAddressByUserId exStore (-7) = none ∧
    (getBooking exStore (-7)).1 = .error .forbiddenError ∧
    (createBooking exStore (-7) 10).1 = .error .forbiddenError ∧
    (updateBooking exStore (-7) 5 10).1 = .error .forbiddenError :=
  ⟨by decide, no_userId_validation exStore (-7) 5 10 (by decide)⟩

/-- C6: atomicity on failure: whenever getBooking, createBooking or
updateBooking returns forbiddenError or notFoundError, the store it leaves
behind is exactly the input store — every gate precedes the single mutating
step, which is last, so a failed operation mutates nothing. -/
theorem failure_atomicity (s : Store) (u b r : Int) (e : ServiceError) :
    ((getBooking s u).1 = .error e → (getBooking s u).2 = s) ∧
    ((createBooking s u r).1 = .error e → (createBooking s u r).2 = s) ∧
    ((updateBooking s u b r).1 = .error e → (updateBooking s u b r).2 = s) :=
  ⟨fun _ => getBooking_store s u, createBooking_error_store s u r e,
    updateBooking_error_store s u b r e⟩

/-- C6 witness: creating on the full room 11 fails with forbiddenError and
leaves the concrete store unchanged. -/
theorem failure_atomicity_witness :
    (createBooking exStore 1 0).1 = .error .forbiddenError ∧
    (createBooking exStore 1 0).2 = exStore := by
  refine ⟨by decide, ?_⟩
  exact (failure_atomicity exStore 1 5 0 .forbiddenError).2.1 (by decide)

/-- C9: getBooking denies an ineligible user; for an eligible user with no
booking row it reports notFoundError; and for an eligible user whose booking
is found it returns exactly the payload of shape \x7b id, room \x7d holding the
booking's id and its joined Room record. -/
theorem getBooking_spec (s : Store) (u : Int) (hwf : s.WF) :
    (isUserAllowed s u = false → (getBooking s u).1 = .error .forbiddenError) ∧
    (isUserAllowed s u = true → (∀ b ∈ s.bookings, b.userId ≠ u) →
      (getBooking s u).1 = .error .notFoundError) ∧
    (isUserAllowed s u = true →
      ∀ b, s.bookings.find? (fun x => x.userId == u) = some b →
        ∃ room, findRoomById s b.roomId = some room ∧
          (getBooking s u).1 = .ok { id := b.id, room := room }) := by
  obtain ⟨_, _, href, _, _⟩ := hwf
  refine ⟨?_, ?_, ?_⟩
  · intro h
    unfold getBooking
    rw [h]
    simp
  · intro ha hnb
    unfold getBooking
    rw [ha, findWithRoomByUserId_none_of s u hnb]
    simp
  · intro ha b hfind
    have hbmem : b ∈ s.bookings := List.mem_of_find?_eq_some hfind
    obtain ⟨rm, hrm, hrmid⟩ := href b hbmem
    obtain ⟨room, hroom⟩ := findRoomById_isSome s b.roomId rm hrm hrmid
    refine ⟨room, hroom, ?_⟩
    unfold getBooking
    rw [ha, findWithRoomByUserId_some_of_find s u b hfind room hroom]
    simp

/-- C9 witness: on the concrete store, eligible user 2 owns booking 5 in room
10 and getBooking returns \x7b id := 5, room := room 10 \x7d; ineligible user 3
is denied. -/
theorem getBooking_spec_witness :
    exStore.WF ∧
    (getBooking exStore 3).1 = .error .forbiddenError ∧
    (getBooking exStore 2).1 =
      .ok { id := 5, room := { id := 10, capacity := 3 } } := by
  refine ⟨by decide, ?_, ?_⟩
  · exact (getBooking_spec exStore 3 (by decide)).1 (by decide)
  · obtain ⟨room, hroom, hok⟩ :=
      (getBooking_spec exStore 2 (by decide)).2.2 (by decide)
        { id := 5, userId := 2, roomId := 10 } (by decide)
    have hr : room = { id := 10, capacity := 3 } := by
      have : some room = some { id := 10, capacity := 3 } := by
        rw [← hroom]; decide
      exact Option.some_inj.mp this
    rw [hr] at hok
    exact hok

/-- C8: no-op move rejection (P3): for any user u and any bookingId b of an
existing booking in a well-formed store, updateBooking(u, b, current room of
b) always fails with forbiddenError (AuthorizationDenied — never success,
never notFoundError) and leaves every store unchanged. -/
theorem noop_move_rejected (s : Store) (u b : Int) (hwf : s.WF) (bk : Booking)
    (hfind : findById s b = some bk) :
    (updateBooking s u b bk.roomId).1 = .error .forbiddenError ∧
    (updateBooking s u b bk.roomId).2 = s := by
  obtain ⟨hnodup, _, href, _, _⟩ := hwf
  obtain ⟨hmem, hbid⟩ := findById_mem s b bk hfind
  obtain ⟨rm, hrm, hrmid⟩ := href bk hmem
  obtain ⟨room, hroom⟩ := findRoomById_isSome s bk.roomId rm hrm hrmid
  have herr : (updateBooking s u b bk.roomId).1 = .error .forbiddenError := by
    unfold updateBooking
    by_cases hc : (decide (bk.roomId < 1) || decide (b < 1)) = true
    · rw [if_pos hc]
    · rw [if_neg hc]
      cases ha : isUserAllowed s u with
      | false => simp
      | true =>
        simp only [ha, Bool.not_true, Bool.false_eq_true, if_false]
        rw [hroom, hfind]
        cases hub : findWithRoomByUserId s u with
        | none => simp
        | some ub =>
          by_cases hid : ub.id = b
          · simp [hid]
          · simp [hid]
  exact ⟨herr, updateBooking_error_store s u b bk.roomId .forbiddenError herr⟩

/-- C8 witness: moving booking 5 (user 2, room 10) to its own room 10 is
denied and mutates nothing. -/
theorem noop_move_rejected_witness :
    (updateBooking exStore 2 5 10).1 = .error .forbiddenError ∧
    (updateBooking exStore 2 5 10).2 = exStore := by
  have h := noop_move_rejected exStore 2 5 (by decide)
    { id := 5, userId := 2, roomId := 10 } (by decide)
  exact h

/-- C2 counterexample: in the concrete store, booking 5 exists and belongs to
user 2 (not to user 1), user 1 is eligible, and roomId 99 identifies no
room; updateBooking(1, 5, 99) then fails with notFoundError — not with
forbiddenError as the claim requires for every r. -/
theorem ownership_counterexample :
    findById exStore 5 = some { id := 5, userId := 2, roomId := 10 } ∧
    (2 : Int) ≠ 1 ∧
    isUserAllowed exStore 1 = true ∧
    findRoomById exStore 99 = none ∧
    (updateBooking exStore 1 5 99).1 = .error .notFoundError ∧
    ¬ (updateBooking exStore 1 5 99).1 = .error .forbiddenError := by decide

/-- C2 (amended): for a well-formed store, a user u, and a bookingId b of an
existing booking that does not belong to u, updateBooking(u, b, r) fails
with forbiddenError (AuthorizationDenied) whenever r is below 1 or
identifies an existing room — full or not; when r ≥ 1 identifies no room
and u is eligible, the existence gate fires first and the operation instead
fails with notFoundError. -/
theorem ownership_denied (s : Store) (u b r : Int) (hwf : s.WF) (bk : Booking)
    (hfind : findById s b = some bk) (howner : bk.userId ≠ u) :
    ((r < 1 ∨ ∃ room, findRoomById s r = some room) →
      (updateBooking s u b r).1 = .error .forbiddenError) ∧
    (¬ r < 1 → isUserAllowed s u = true → findRoomById s r = none →
      (updateBooking s u b r).1 = .error .notFoundError) := by
  obtain ⟨hnodup, _, _, hbids, _⟩ := hwf
  obtain ⟨hmem, hbid⟩ := findById_mem s b bk hfind
  constructor
  · intro hr
    unfold updateBooking
    by_cases hc : (decide (r < 1) || decide (b < 1)) = true
    · rw [if_pos hc]
    · rw [if_neg hc]
      have hrge : ¬ r < 1 := by
        intro hlt
        exact hc (by simp [hlt])
      obtain ⟨room, hroom⟩ := hr.resolve_left hrge
      cases ha : isUserAllowed s u with
      | false => simp
      | true =>
        simp only [ha, Bool.not_true, Bool.false_eq_true, if_false]
        rw [hroom, hfind]
        cases hub : findWithRoomByUserId s u with
        | none => simp
        | some ub =>
          obtain ⟨b2, _, hb2mem, hb2u, hubid, _⟩ :=
            findWithRoomByUserId_some_inv s u ub hub
          have hid : ub.id ≠ b := by
            intro hide
            have hb2id : b2.id = bk.id := by rw [← hubid, hide, hbid]
            have : b2 = bk := List.inj_on_of_nodup_map hnodup hb2mem hmem hb2id
            exact howner (by rw [← this, hb2u])
          simp [hid]
  · intro hrge ha hroom
    unfold updateBooking
    have hbge : ¬ b < 1 := by
      have := hbids bk hmem
      omega
    rw [if_neg (by simp [hrge, hbge])]
    simp only [ha, Bool.not_true, Bool.false_eq_true, if_false]
    rw [hroom, hfind]

/-- C2 (amended) witness: user 1 attacking booking 5 of user 2 is denied when
the target room 10 exists, and gets notFoundError for nonexistent room 99. -/
theorem ownership_denied_witness :
    (updateBooking exStore 1 5 10).1 = .error .forbiddenError ∧
    (updateBooking exStore 1 5 99).1 = .error .notFoundError := by
  have h := ownership_denied exStore 1 5 10 (by decide)
    { id := 5, userId := 2, roomId := 10 } (by decide) (by decide)
  have h2 := ownership_denied exStore 1 5 99 (by decide)
    { id := 5, userId := 2, roomId := 10 } (by decide) (by decide)
  exact ⟨h.1 (Or.inr ⟨{ id := 10, capacity := 3 }, by decide⟩),
    h2.2 (by decide) (by decide) (by decide)⟩

/-- C3: createBooking success: an eligible user with no booking row, and an
existing room whose occupancy is strictly below capacity — the operation
succeeds, returns exactly the id of the newly inserted booking row, the
post-state extends the old bookings by that single row (previously existing
bookings unchanged), and the post-state holds exactly one booking row for
the user, pointing at the requested room. -/
theorem createBooking_success (s : Store) (u rid : Int) (hwf : s.WF)
    (ha : isUserAllowed s u = true)
    (hnb : ∀ b ∈ s.bookings, b.userId ≠ u)
    (room : Room) (hroom : findRoomById s rid = some room)
    (hcount : (countBookingsByRoomId s rid : Int) < room.capacity) :
    (createBooking s u rid).1 = .ok { bookingId := s.nextBookingId } ∧
    (createBooking s u rid).2.bookings =
      s.bookings ++ [{ id := s.nextBookingId, userId := u, roomId := rid }] ∧
    (createBooking s u rid).2.bookings.filter (fun x => x.userId == u) =
      [{ id := s.nextBookingId, userId := u, roomId := rid }] := by
  obtain ⟨_, _, _, _, hrids⟩ := hwf
  obtain ⟨hrmem, hrid⟩ := findRoomById_mem s rid room hroom
  have hrge : ¬ rid < 1 := by
    have h1 := hrids room hrmem
    rw [hrid] at h1
    omega
  have hub : findWithRoomByUserId s u = none := findWithRoomByUserId_none_of s u hnb
  have hfull : isRoomFull s room = false := by
    refine isRoomFull_false_of_ne s room ?_
    rw [hrid]
    omega
  have hstep : createBooking s u rid =
      (.ok { bookingId := s.nextBookingId },
        { s with
            bookings := s.bookings ++ [{ id := s.nextBookingId, userId := u, roomId := rid }]
            nextBookingId := s.nextBookingId + 1 }) := by
    unfold createBooking
    rw [if_neg hrge, ha]
    simp only [Bool.not_true, Bool.false_eq_true, if_false]
    rw [hub, hroom]
    simp [hfull, createByUserIdAndRoomId]
  rw [hstep]
  refine ⟨rfl, rfl, ?_⟩
  show (s.bookings ++ [({ id := s.nextBookingId, userId := u, roomId := rid } : Booking)]).filter
      (fun x => x.userId == u) = _
  rw [List.filter_append]
  have h1 : s.bookings.filter (fun x => x.userId == u) = [] := by
    rw [List.filter_eq_nil_iff]
    intro x hx
    simp [hnb x hx]
  rw [h1]
  simp

/-- C3 witness: eligible user 1 has no booking in the concrete store and room
10 holds 1 of 3; createBooking(1, 10) succeeds with the fresh id 6 and
leaves exactly one booking row for user 1, pointing at room 10. -/
theorem createBooking_success_witness :
    (createBooking exStore 1 10).1 = .ok { bookingId := 6 } ∧
    (createBooking exStore 1 10).2.bookings =
      exStore.bookings ++ [{ id := 6, userId := 1, roomId := 10 }] ∧
    (createBooking exStore 1 10).2.bookings.filter (fun x => x.userId == 1) =
      [{ id := 6, userId := 1, roomId := 10 }] := by
  have h := createBooking_success exStore 1 10 (by decide) (by decide)
    (by decide) { id := 10, capacity := 3 } (by decide) (by decide)
  exact h

/-- C7: the single-booking invariant I1/P2 is preserved: starting from a
well-formed store in which every user holds at most one booking row, any
single run of getBooking, createBooking or updateBooking leaves a store in
which every user still holds at most one booking row (createBooking refuses
a user who already has a booking; updateBooking only rewrites the roomId of
an existing row and never inserts). -/
theorem single_booking_preserved (s : Store) (hwf : s.WF)
    (hinv : OneBookingPerUser s) (uid bid rid : Int) :
    OneBookingPerUser (getBooking s uid).2 ∧
    OneBookingPerUser (createBooking s uid rid).2 ∧
    OneBookingPerUser (updateBooking s uid bid rid).2 := by
  obtain ⟨hnodup, _, href, _, _⟩ := hwf
  refine ⟨by rw [getBooking_store]; exact hinv, ?_, ?_⟩
  · cases hres : (createBooking s uid rid).1 with
    | error e =>
      rw [createBooking_error_store s uid rid e hres]
      exact hinv
    | ok v =>
      obtain ⟨_, _, hub, room, _, _, _, hpost⟩ := createBooking_ok_inv s uid rid v hres
      rw [hpost]
      intro u
      show (s.bookings ++ [({ id := s.nextBookingId, userId := uid, roomId := rid } : Booking)]).countP
          (fun x => x.userId == u) ≤ 1
      rw [countP_user_append]
      have hnb := findWithRoomByUserId_none_inv s uid href hub
      by_cases hcu : uid = u
      · have hzero : s.bookings.countP (fun x => x.userId == u) = 0 := by
          rw [List.countP_eq_zero]
          intro x hx
          simp only [beq_iff_eq]
          rw [← hcu]
          exact hnb x hx
        simp [hzero, hcu]
      · have hne : ({ id := s.nextBookingId, userId := uid, roomId := rid } : Booking).userId ≠ u :=
          hcu
        rw [if_neg hne]
        simpa using hinv u
  · cases hres : (updateBooking s uid bid rid).1 with
    | error e =>
      rw [updateBooking_error_store s uid bid rid e hres]
      exact hinv
    | ok v =>
      obtain ⟨_, room, booking, ub, _, _, _, _, _, _, _, hpost⟩ :=
        updateBooking_ok_inv s uid bid rid v hres
      rw [hpost]
      intro u
      show ((s.bookings.map fun x => if x.id == bid then { x with roomId := rid } else x).countP
          (fun x => x.userId == u)) ≤ 1
      rw [countP_user_update]
      exact hinv u

/-- C7 witness: the concrete store has one booking row in total, so every
user holds at most one; get, create and update (here: user 2 moving booking
5 to room 11) all preserve this. -/
theorem single_booking_preserved_witness :
    OneBookingPerUser (getBooking exStore 2).2 ∧
    OneBookingPerUser (createBooking exStore 2 11).2 ∧
    OneBookingPerUser (updateBooking exStore 2 5 11).2 := by
  have hone : OneBookingPerUser exStore := by
    intro u
    exact Nat.le_trans (List.countP_le_length _) (by decide)
  exact single_booking_preserved exStore (by decide) hone 2 5 11

/-- C1: the capacity invariant I2/P1 is preserved: starting from a
well-formed store in which every room's booking count is at most its
capacity, any single sequential run of getBooking, createBooking or
updateBooking leaves a store in which every room's booking count is still at
most its capacity. -/
theorem capacity_preserved (s : Store) (hwf : s.WF) (hinv : RoomCapOK s)
    (uid bid rid : Int) :
    RoomCapOK (getBooking s uid).2 ∧
    RoomCapOK (createBooking s uid rid).2 ∧
    RoomCapOK (updateBooking s uid bid rid).2 := by
  obtain ⟨hnodup, hrnodup, href, hbids, hrids⟩ := hwf
  refine ⟨by rw [getBooking_store]; exact hinv, ?_, ?_⟩
  · cases hres : (createBooking s uid rid).1 with
    | error e =>
      rw [createBooking_error_store s uid rid e hres]
      exact hinv
    | ok v =>
      obtain ⟨_, _, _, room, hroom, hfull, _, hpost⟩ := createBooking_ok_inv s uid rid v hres
      obtain ⟨hrmem, hrid⟩ := findRoomById_mem s rid room hroom
      rw [hpost]
      intro R hR
      have hRmem : R ∈ s.rooms := hR
      rw [countBookingsByRoomId_eq_countP]
      show (((s.bookings ++ [({ id := s.nextBookingId, userId := uid, roomId := rid } : Booking)]).countP
          (fun x => x.roomId == R.id) : Nat) : Int) ≤ R.capacity
      rw [countP_room_append]
      by_cases hRr : rid = R.id
      · have hReq : R = room :=
          List.inj_on_of_nodup_map hrnodup hRmem hrmem (by rw [hrid, ← hRr])
        subst hReq
        have hne := ne_capacity_of_isRoomFull_false s R hfull
        have hle := hinv R hRmem
        rw [countBookingsByRoomId_eq_countP] at hne hle
        rw [hrid] at hne hle
        rw [← hRr]
        have hone : (if rid = rid then 1 else 0) = 1 := if_pos rfl
        rw [hone]
        push_cast
        omega
      · rw [if_neg hRr]
        have hle := hinv R hRmem
        rw [countBookingsByRoomId_eq_countP] at hle
        push_cast
        omega
  · cases hres : (updateBooking s uid bid rid).1 with
    | error e =>
      rw [updateBooking_error_store s uid bid rid e hres]
      exact hinv
    | ok v =>
      obtain ⟨_, room, booking, ub, hroom, hbk, hub, hubid, hbkne, hfull, _, hpost⟩ :=
        updateBooking_ok_inv s uid bid rid v hres
      obtain ⟨hrmem, hrid⟩ := findRoomById_mem s rid room hroom
      obtain ⟨hbkmem, hbkid⟩ := findById_mem s bid booking hbk
      rw [hpost]
      intro R hR
      have hRmem : R ∈ s.rooms := hR
      rw [countBookingsByRoomId_eq_countP]
      show (((s.bookings.map fun x =>
          if x.id == bid then { x with roomId := rid } else x).countP
          (fun x => x.roomId == R.id) : Nat) : Int) ≤ R.capacity
      by_cases hRr : R.id = rid
      · have hReq : R = room :=
          List.inj_on_of_nodup_map hrnodup hRmem hrmem (by rw [hrid, hRr])
        have hcnt := countP_update_target s.bookings bid rid booking hbkmem hbkid hnodup hbkne
        have hne := ne_capacity_of_isRoomFull_false s room hfull
        have hle := hinv room hrmem
        rw [countBookingsByRoomId_eq_countP] at hne hle
        rw [hrid] at hne hle
        rw [hRr, hcnt, hReq]
        push_cast
        omega
      · have hcnt := countP_update_other s.bookings bid rid R.id hRr
        have hle := hinv R hRmem
        rw [countBookingsByRoomId_eq_countP] at hle
        omega

/-- C1 witness: in the concrete well-formed store every room is within
capacity, and it stays so after getBooking(2), createBooking(2, 11) and
updateBooking(2, 5, 11). -/
theorem capacity_preserved_witness :
    RoomCapOK (getBooking exStore 2).2 ∧
    RoomCapOK (createBooking exStore 2 11).2 ∧
    RoomCapOK (updateBooking exStore 2 5 11).2 := by
  have hcap : RoomCapOK exStore := by decide
  exact capacity_preserved exStore (by decide) hcap 2 5 11

end Drivent
